import Mathlib

/-!
Shallow embedding of the maubot meeting-summary plugin
(source file: meeting_summary.py).

The plugin listens for room messages, admits notices from a configured
announcing bot whose body starts with a fixed marker, fetches the
announced transcript over HTTP, extracts participant identities with a
regular expression, asks an AI backend for a summary, replies with the
summary plus two reaction affordances, and archives the summary under a
configured directory.

Pure computations (username extraction, URL-path parsing, archive-path
derivation, config update) are embedded as Lean functions; the
effectful pipeline is embedded as a function from the inbound event,
the configuration and an oracle for the external collaborators
(room-state lookup result, HTTP fetch outcome, AI result) to the list
of outbound effects the handler performs, in order.
-/

/-- Marker prefixing meetbot Text Log notices (source constant). -/
def MEETBOT_PREFIX_STR : String := "Text Log: "

/-- Wire value of the notice message type (mautrix MessageType.NOTICE). -/
def MESSAGE_TYPE_NOTICE : String := "m.notice"

/-- Suffix removed from the transcript URL path when deriving the archive path. -/
def LOG_SUFFIX : String := ".log.txt"

/-- Suffix appended to the truncated URL path when deriving the archive path. -/
def SUMMARY_SUFFIX : String := ".summary.md"

/-- Notice line prepended to a summary that has not been validated. -/
def UNVALIDATED_NOTICE : String :=
  "*Note: This summary has not been validated by the attendants.*\n\n"

/-- Accept reaction emoji. -/
def CHECK_EMOJI : String := "✅"

/-- Reject reaction emoji. -/
def CROSS_EMOJI : String := "❌"

/-- Failure indicator prefixing fetch-error replies. -/
def FAIL_EMOJI : String := "❌ "

/-- Path separator, as used by lstrip and pathlib. -/
def SLASH : String := "/"

/-- Plugin configuration, plus the mxid of the bot account itself
(`self.client.mxid` in the source), which extraction also excludes. -/
structure Config where
  meetbot_id : String
  ignored_participants : List String
  meetings_directory : String
  mxid : String
deriving DecidableEq, Repr

/-! ### Participant extraction (`extract_usernames`)

The source matches the regular expression
`\d\x7b4\x7d-\d\d-\d\d \d\d:\d\d:\d\d <(@[^>]+)> ` with `re.findall`,
collects the group-1 matches into a set, removes the ignored
identities (suppressing absence), and returns the sorted list.
We embed the regex as a deterministic matcher on the character list:
the character class `[^>]+` cannot backtrack usefully because the
character it excludes is exactly the one that must follow it.
`\d` is modelled as an ASCII digit. -/

/-- Consume exactly `n` digits. -/
def eatDigits : Nat → List Char → Option (List Char)
  | 0, l => some l
  | _ + 1, [] => none
  | n + 1, c :: cs => if c.isDigit then eatDigits n cs else none

/-- Consume exactly the character `ch`. -/
def eatChar (ch : Char) : List Char → Option (List Char)
  | [] => none
  | c :: cs => if c = ch then some cs else none

/-- Match the date part of the pattern. -/
def matchDate (l0 : List Char) : Option (List Char) := do
  let l ← eatDigits 4 l0
  let l ← eatChar '-' l
  let l ← eatDigits 2 l
  let l ← eatChar '-' l
  eatDigits 2 l

/-- Match the clock part of the pattern. -/
def matchClock (l0 : List Char) : Option (List Char) := do
  let l ← eatDigits 2 l0
  let l ← eatChar ':' l
  let l ← eatDigits 2 l
  let l ← eatChar ':' l
  eatDigits 2 l

/-- Match the identity part of the pattern, returning the group-1
capture (identity including the at sign) and the remaining characters
after the match. -/
def matchIdent (l0 : List Char) : Option (List Char × List Char) := do
  let l ← eatChar '<' l0
  let l ← eatChar '@' l
  let ident := l.takeWhile (fun c => c ≠ '>')
  let rest := l.dropWhile (fun c => c ≠ '>')
  if ident.isEmpty then none
  else do
    let rest ← eatChar '>' rest
    let rest ← eatChar ' ' rest
    some ('@' :: ident, rest)

/-- Attempt to match the speaker-line pattern at the head of `l0`.
On success, return the group-1 capture (identity including the at
sign) and the characters remaining after the whole match. -/
def matchAt (l0 : List Char) : Option (List Char × List Char) := do
  let l ← matchDate l0
  let l ← eatChar ' ' l
  let l ← matchClock l
  let l ← eatChar ' ' l
  matchIdent l

/-- Scan left to right as `re.findall` does: try a match at each
position; on success record the capture and resume after the match,
otherwise advance one character.  The fuel starts at the input length
and never runs out before the input does, because a successful match
consumes at least one character. -/
def findallAux : Nat → List Char → List (List Char)
  | 0, _ => []
  | _ + 1, [] => []
  | n + 1, c :: cs =>
    match matchAt (c :: cs) with
    | some (g, rest) => g :: findallAux n rest
    | none => findallAux n cs

/-- All group-1 captures of the speaker-line pattern in `s`. -/
def regexMatches (s : String) : List String :=
  (findallAux s.data.length s.data).map fun l => ⟨l⟩

/-- Identities removed from the extracted set: the bot itself, the
announcing bot, and the configured exclusions (source list
`[self.client.mxid, self.config["meetbot_id"]] + ignored_participants`). -/
def ignoredIds (cfg : Config) : List String :=
  cfg.mxid :: cfg.meetbot_id :: cfg.ignored_participants

/-- Embedding of `extract_usernames`: matches, deduplicated into a
set (modelled as the duplicate-free list of first occurrences),
ignored identities removed (removal of an absent identity is a no-op,
as the source suppresses KeyError; on a duplicate-free list `erase`
is exactly set removal), result sorted. -/
def extract_usernames (cfg : Config) (meeting_log : String) : List String :=
  let usernames := (regexMatches meeting_log).dedup
  let usernames := (ignoredIds cfg).foldl (fun s i => s.erase i) usernames
  List.insertionSort (· ≤ ·) usernames

/-! ### URL path extraction (`urllib.parse.urlparse(url).path`)

Embedding of the relevant part of CPython urlsplit: strip the scheme
(first char ASCII-alpha, following chars alphanumeric or `+`/`-`/`.`,
terminated by a colon), strip `//netloc` up to the first of `/?#`,
then cut the fragment (first `#`) and the query (first `?`). -/

/-- Characters allowed in a URL scheme after the first. -/
def isSchemeChar (c : Char) : Bool :=
  c.isAlphanum || c = '+' || c = '-' || c = '.'

/-- Remove a leading `scheme:` if present. -/
def stripScheme (l : List Char) : List Char :=
  match l with
  | [] => []
  | c :: cs =>
    if c.isAlpha then
      match cs.dropWhile isSchemeChar with
      | ':' :: r => r
      | _ => l
    else l

/-- Character ending the netloc component. -/
def isNetlocEnd (c : Char) : Bool :=
  c = '/' || c = '?' || c = '#'

/-- Remove a leading `//netloc` if present, keeping the terminator. -/
def stripNetloc (l : List Char) : List Char :=
  match l with
  | '/' :: '/' :: rest => rest.dropWhile (fun c => !(isNetlocEnd c))
  | _ => l

/-- Characters before the first occurrence of `stop`. -/
def takeUntilChar (stop : Char) (l : List Char) : List Char :=
  l.takeWhile (fun c => c ≠ stop)

/-- The `path` component of `urlparse url`. -/
def urlparse_path (url : String) : String :=
  let l := stripScheme url.data
  let l := stripNetloc l
  let l := takeUntilChar '#' l
  let l := takeUntilChar '?' l
  ⟨l⟩

/-! ### Archive path derivation and file write (`post_summary` tail,
`_save_summary_to_file`) -/

/-- Python `s.lstrip("/")`: drop all leading slashes. -/
def pyLstripSlash (s : String) : String :=
  ⟨s.data.dropWhile (fun c => c = '/')⟩

/-- The relative archive path derived in `post_summary`:
`urlparse(url).path`, the last `len(".log.txt")` characters removed
(Python slice `[: -8]`, which clamps to the empty string), the summary
suffix appended, leading slashes stripped. -/
def derive_summary_path (url : String) : String :=
  let p := urlparse_path url
  pyLstripSlash ⟨p.data.take (p.data.length - LOG_SUFFIX.length) ++ SUMMARY_SUFFIX.data⟩

/-- Whether `marker` occurs at the head of the character list. -/
def markerAtHead : List Char → List Char → Bool
  | [], _ => true
  | _ :: _, [] => false
  | p :: ps, c :: cs => p = c && markerAtHead ps cs

/-- Python `s.startswith(marker)`, on the character list. -/
def pyStartsWith (s marker : String) : Bool :=
  markerAtHead marker.data s.data

/-- Python `s[n:]` (slice by characters), on the character list. -/
def pyDrop (s : String) (n : Nat) : String :=
  ⟨s.data.drop n⟩

/-- Whether the last character is a slash, on the character list. -/
def lastIsSlash (s : String) : Bool :=
  match s.data.getLast? with
  | some c => c = '/'
  | none => false

/-- `pathlib.Path(root) / rel` for a relative `rel` (the source strips
leading slashes before joining). -/
def pathJoin (root rel : String) : String :=
  if rel = "" then root
  else if lastIsSlash root then root ++ rel
  else root ++ SLASH ++ rel

/-- Embedding of `_save_summary_to_file`: `none` when the archive
directory is unset (feature disabled — no filesystem effect at all),
otherwise the absolute file path and the content written (the
unvalidated notice is prepended when `validated` is false). -/
def save_summary_to_file (cfg : Config) (summary path : String) (validated : Bool) :
    Option (String × String) :=
  if cfg.meetings_directory = "" then none
  else
    let content := if validated then summary else UNVALIDATED_NOTICE ++ summary
    some (pathJoin cfg.meetings_directory path, content)

/-! ### The effectful pipeline

Outbound calls and log lines the handler can perform, in the order it
performs them.  External collaborators (room-state lookup, HTTP GET,
AI backend) are modelled by an oracle `World` fixing their results. -/

/-- One outbound call or log line of the handler. -/
inductive Effect where
  | getStateEvent (room : String)
  | markRead
  | setTyping (room : String) (timeout : Nat)
  | httpGet (url : String)
  | reply (text : String)
  | respond (text : String)
  | react (room : String) (emoji : String)
  | generateContent (doc : String)
  | mkdirParents (filePath : String)
  | writeText (filePath : String) (content : String)
  | logDebug (msg : String)
  | logInfo (msg : String)
  | logWarning (msg : String)
  | logException (msg : String)
deriving DecidableEq, Repr

/-- Outcome of the single HTTP GET for the transcript. -/
inductive FetchOutcome where
  | ok (text : String)
  | httpError (msg : String)
  | otherError (msg : String)
deriving DecidableEq, Repr

/-- Oracle for the external collaborators during one event. -/
structure World where
  roomAlias : Option String
  fetch : FetchOutcome
  aiResult : Option String
deriving DecidableEq, Repr

/-- The fields of the inbound room-message event the handler reads. -/
structure Evt where
  room_id : String
  sender : String
  msgtype : String
  body : String
deriving DecidableEq, Repr

/-- Python `room_alias or evt.room_id`. -/
def aliasOr (w : World) (room : String) : String :=
  match w.roomAlias with
  | some a => a
  | none => room

/-- The display name used in the detection log line. -/
def roomName (w : World) (room : String) : String :=
  let rn := aliasOr w room
  if rn ≠ room then rn ++ " (" ++ room ++ ")" else rn

/-- Effects of `_get_room_alias`: the state-event lookup, plus a
warning when the room has no canonical alias. -/
def get_room_alias_fx (w : World) (room : String) : List Effect :=
  match w.roomAlias with
  | some _ => [Effect.getStateEvent room]
  | none => [Effect.getStateEvent room, Effect.logWarning ("No room alias for " ++ room)]

/-- Message of the `MeetingLogFetchingError` raised on an HTTP status
or transport error. -/
def FETCH_FAIL_MSG (m : String) : String :=
  "❌ Failed to fetch meeting log: " ++ m

/-- Message of the `MeetingLogFetchingError` raised on any other
exception during the fetch. -/
def FETCH_ERROR_MSG (m : String) : String :=
  "❌ Error processing meeting log: " ++ m

/-- Embedding of `get_meeting_log`: its effects and its result
(`Except` carries the `MeetingLogFetchingError` message). -/
def get_meeting_log_fx (w : World) (evt : Evt) (url : String) :
    List Effect × Except String String :=
  let pre := [Effect.logDebug ("Processing meeting log from URL: " ++ url ++ " in room " ++ evt.room_id),
              Effect.httpGet url]
  match w.fetch with
  | FetchOutcome.ok t =>
      (pre ++ [Effect.logDebug ("Successfully fetched meeting log content (" ++ toString t.length ++ " characters)")],
       Except.ok t)
  | FetchOutcome.httpError m =>
      (pre ++ [Effect.logException ("Failed to fetch meeting log from " ++ url ++ ": " ++ m)],
       Except.error (FETCH_FAIL_MSG m))
  | FetchOutcome.otherError m =>
      (pre ++ [Effect.logException ("Unexpected error processing meeting log: " ++ m)],
       Except.error (FETCH_ERROR_MSG m))

/-- Python repr of a string (single-quoted), as it appears in the
participants log line. -/
def pyRepr (s : String) : String := "\x27" ++ s ++ "\x27"

/-- Python repr of a list of strings. -/
def pyReprList (l : List String) : String :=
  "[" ++ String.intercalate (", ") (l.map pyRepr) ++ "]"

/-- The reply text rendered from `RESPONSE_TEMPLATE` by
`format(members=..., summary=...)`. -/
def response_template (members summary : String) : String :=
  "Hello " ++ members ++ ". Here\x27s a short summary of the meeting:\n\n---\n"
    ++ summary
    ++ "\n---\n\nDoes it look correct to you? If so, please click on ✅, otherwise please click on ❌.\n\n(*this bot feature is in alpha stage, thanks for your patience*)\n"

/-- Effects of the archive step at the end of `post_summary`
(`_save_summary_to_file` with `validated=False`): nothing when
archiving is disabled, otherwise the parent-directory creation, the
file write, and the log line. -/
def save_fx (cfg : Config) (summary path : String) : List Effect :=
  match save_summary_to_file cfg summary path false with
  | none => []
  | some (p, content) =>
      [Effect.mkdirParents p, Effect.writeText p content,
       Effect.logInfo ("Saved summary to " ++ p)]

/-- Embedding of `post_summary`: when the summary is absent, only a
warning; otherwise the formatted reply, the two reactions, and the
archive step on the path derived from the URL. -/
def post_summary (cfg : Config) (evt : Evt) (summary : Option String)
    (usernames : List String) (url : String) : List Effect :=
  match summary with
  | none =>
      [Effect.logWarning ("Could not generate summary for meeting in room " ++ evt.room_id)]
  | some s =>
      Effect.logInfo ("Sending summary to " ++ toString usernames.length ++ " participants in room " ++ evt.room_id) ::
      Effect.respond (response_template (String.intercalate (", ") usernames) s) ::
      Effect.react evt.room_id CHECK_EMOJI ::
      Effect.react evt.room_id CROSS_EMOJI ::
      save_fx cfg s (derive_summary_path url)

/-- Embedding of `handle_meeting_log`: set the typing indicator, fetch
the transcript (replying and returning on a fetch error), extract the
participants (the extraction logs its result), request the summary,
post it, and clear the typing indicator. -/
def handle_meeting_log (cfg : Config) (w : World) (evt : Evt) (url : String) : List Effect :=
  let fetched := get_meeting_log_fx w evt url
  Effect.setTyping evt.room_id 30000 ::
  fetched.1 ++
  match fetched.2 with
  | Except.error e => [Effect.reply e]
  | Except.ok mlog =>
      let usernames := extract_usernames cfg mlog
      Effect.logInfo ("Found " ++ toString usernames.length ++ " unique participants: " ++ pyReprList usernames) ::
      Effect.generateContent mlog ::
      post_summary cfg evt w.aiResult usernames url ++
      [Effect.setTyping evt.room_id 0]

/-- Embedding of `on_message`: look up the room alias, then filter
(notice type, sender, marker), marking the event read after the
sender check and before the marker check, and hand admitted events to
`handle_meeting_log` with the URL cut out of the body. -/
def on_message (cfg : Config) (w : World) (evt : Evt) : List Effect :=
  get_room_alias_fx w evt.room_id ++
  if evt.msgtype ≠ MESSAGE_TYPE_NOTICE then []
  else if evt.sender ≠ cfg.meetbot_id then
    [Effect.logDebug ("Ignoring message from " ++ evt.sender ++ " in " ++ aliasOr w evt.room_id ++ ", I\x27m only listening to " ++ cfg.meetbot_id)]
  else
    Effect.markRead ::
    if pyStartsWith evt.body MEETBOT_PREFIX_STR then
      let url := pyDrop evt.body MEETBOT_PREFIX_STR.length
      Effect.logInfo ("Detected Text Log message from meetbot in " ++ roomName w evt.room_id ++ " with URL: " ++ url) ::
      handle_meeting_log cfg w evt url
    else
      [Effect.logDebug ("Ignoring message from meetbot: " ++ evt.body)]

/-! ### Configuration update (`Config.do_update`)

The source method runs against the mautrix `ConfigUpdateHelper`: the
helper holds the packaged base (default) config and the stored (user)
config; `copy k` overwrites the base entry with the stored entry when
the stored config has one, `copy_dict k` (with its default
`override_existing_map=True`) replaces the base section with a fresh
map holding exactly the stored section entries; the mutated base
becomes the updated configuration.  Sections are insertion-ordered
string maps; a missing key raises `KeyError`, modelled as `none`. -/

/-- An insertion-ordered string-to-string map (one config section). -/
abbrev ConfigSection : Type := List (String × String)

/-- The gemini model key. -/
def MODEL_KEY : String := "model"

/-- Dictionary lookup in a section. -/
def sectionGet : ConfigSection → String → Option String
  | [], _ => none
  | (k, v) :: t, key => if k = key then some v else sectionGet t key

/-- Dictionary assignment in a section: replace in place, or append. -/
def sectionSet : ConfigSection → String → String → ConfigSection
  | [], key, val => [(key, val)]
  | (k, v) :: t, key, val =>
      if k = key then (key, val) :: t else (k, v) :: sectionSet t key val

/-- The recognized top-level entries of a stored or base config; a
`none` field is an absent key. -/
structure StoredConfig where
  gemini : Option ConfigSection
  meetbot_id : Option String
  ignored_participants : Option (List String)
  meetings_directory : Option String
deriving DecidableEq, Repr

/-- The presence check shared by `copy` and `copy_dict`: the base
entry is overwritten exactly when the stored config has the key. -/
def copyOpt {α : Type} (s b : Option α) : Option α :=
  match s with
  | some v => some v
  | none => b

/-- Embedding of `Config.do_update`: patch the stored gemini section
with the base model when it lacks one (reading
`helper.base["gemini"]["model"]`, whose KeyError is `none`), then copy
the gemini section and the three scalar keys from the stored config
over the base; the mutated base is the updated config. -/
def do_update (source base : StoredConfig) : Option StoredConfig := do
  let source ←
    match source.gemini with
    | some g =>
        if (sectionGet g MODEL_KEY).isNone then do
          let bg ← base.gemini
          let m ← sectionGet bg MODEL_KEY
          pure { source with gemini := some (sectionSet g MODEL_KEY m) }
        else pure source
    | none => pure source
  pure { base with
    gemini := copyOpt source.gemini base.gemini,
    meetbot_id := copyOpt source.meetbot_id base.meetbot_id,
    ignored_participants := copyOpt source.ignored_participants base.ignored_participants,
    meetings_directory := copyOpt source.meetings_directory base.meetings_directory }

/-! ### Spec-side helper predicates -/

/-- The admission predicate of the event filter: notice type, sender
is the announcing bot, body carries the marker. -/
abbrev admits (cfg : Config) (evt : Evt) : Prop :=
  evt.msgtype = MESSAGE_TYPE_NOTICE ∧ evt.sender = cfg.meetbot_id ∧
    pyStartsWith evt.body MEETBOT_PREFIX_STR = true

/-- Recognizer for reply effects. -/
def isReplyE : Effect → Bool
  | Effect.reply _ => true
  | _ => false

/-- The error message carried by a failing fetch outcome, if any. -/
def fetchErrMsg : FetchOutcome → Option String
  | FetchOutcome.ok _ => none
  | FetchOutcome.httpError m => some (FETCH_FAIL_MSG m)
  | FetchOutcome.otherError m => some (FETCH_ERROR_MSG m)

/-! ### Helper lemmas -/

theorem foldl_erase_nodup (l : List String) (s : List String) (hs : s.Nodup) :
    (l.foldl (fun s i => s.erase i) s).Nodup := by
  induction l generalizing s with
  | nil => exact hs
  | cons a t ih => exact ih (s.erase a) (hs.erase a)

theorem mem_foldl_erase (l : List String) (s : List String) (hs : s.Nodup) (u : String) :
    u ∈ l.foldl (fun s i => s.erase i) s ↔ u ∈ s ∧ u ∉ l := by
  induction l generalizing s with
  | nil => simp
  | cons a t ih =>
      rw [List.foldl_cons, ih (s.erase a) (hs.erase a)]
      rw [hs.mem_erase_iff]
      simp only [List.mem_cons]
      tauto

/-! ### Concrete instances used by witnesses and counterexamples -/

/-- A sample configuration. -/
def cfgEx : Config :=
  { meetbot_id := "@meetbot:fedora.im"
    ignored_participants := ["@zodbot:fedora.im"]
    meetings_directory := "/data/minutes"
    mxid := "@summarizer:fedora.im" }

/-- A notice from the announcing bot whose body lacks the marker. -/
def evtNoMarker : Evt :=
  { room_id := "!room:fedora.im"
    sender := "@meetbot:fedora.im"
    msgtype := "m.notice"
    body := "hello" }

/-- An admitted Text Log notice. -/
def evtAdmitted : Evt :=
  { room_id := "!room:fedora.im"
    sender := "@meetbot:fedora.im"
    msgtype := "m.notice"
    body := "Text Log: https://example.org/meetings/2025-09-25.log.txt" }

/-- A world where the fetch fails with an HTTP status error. -/
def worldFetchFail : World :=
  { roomAlias := some "#mtg:fedora.im"
    fetch := FetchOutcome.httpError "404, message=\x27Not Found\x27"
    aiResult := some "SUM" }

/-- A world where everything succeeds. -/
def worldOk : World :=
  { roomAlias := some "#mtg:fedora.im"
    fetch := FetchOutcome.ok "2025-09-25 08:26:00 <@alice:server.tld> hi"
    aiResult := some "SUM" }

/-! ### Claims about the event filter -/

/-- C1 counterexample: a notice from the configured announcing bot
whose body lacks the marker is not admitted, yet handling it performs
outbound calls: the event is marked read, and the room-state lookup
for the alias is performed.  This contradicts the claim that every
non-admitted event produces zero outbound calls. -/
theorem nonadmitted_event_still_marked_read :
    ¬ admits cfgEx evtNoMarker ∧
    Effect.markRead ∈ on_message cfgEx worldOk evtNoMarker ∧
    Effect.getStateEvent (Evt.room_id evtNoMarker) ∈ on_message cfgEx worldOk evtNoMarker := by
  refine ⟨?_, ?_, ?_⟩ <;> decide

/-- C1 (amended): for every inbound event the filter does not admit,
handling the event produces no reply, no transcript fetch, no archive
write or directory creation, no summary request, no reaction, and no
typing signal; however the room-state (alias) lookup is always
performed, and the event is marked read whenever it is a notice from
the configured announcing bot, even when its body lacks the marker. -/
theorem on_message_nonadmitted_no_outbound (cfg : Config) (w : World) (evt : Evt)
    (h : ¬ admits cfg evt) :
    (∀ s, Effect.reply s ∉ on_message cfg w evt) ∧
    (∀ s, Effect.respond s ∉ on_message cfg w evt) ∧
    (∀ u, Effect.httpGet u ∉ on_message cfg w evt) ∧
    (∀ p c, Effect.writeText p c ∉ on_message cfg w evt) ∧
    (∀ p, Effect.mkdirParents p ∉ on_message cfg w evt) ∧
    (∀ d, Effect.generateContent d ∉ on_message cfg w evt) ∧
    (∀ r e, Effect.react r e ∉ on_message cfg w evt) ∧
    (∀ r t, Effect.setTyping r t ∉ on_message cfg w evt) ∧
    Effect.getStateEvent evt.room_id ∈ on_message cfg w evt ∧
    (evt.msgtype = MESSAGE_TYPE_NOTICE → evt.sender = cfg.meetbot_id →
      Effect.markRead ∈ on_message cfg w evt) := by
  obtain ⟨ra, f, ai⟩ := w
  by_cases h1 : evt.msgtype = MESSAGE_TYPE_NOTICE
  · by_cases h2 : evt.sender = cfg.meetbot_id
    · have h3 : pyStartsWith evt.body MEETBOT_PREFIX_STR = false := by
        cases hsw : pyStartsWith evt.body MEETBOT_PREFIX_STR
        · rfl
        · exact absurd ⟨h1, h2, hsw⟩ h
      cases ra <;> simp [on_message, get_room_alias_fx, h1, h2, h3]
    · cases ra <;> simp [on_message, get_room_alias_fx, h1, h2]
  · cases ra <;> simp [on_message, get_room_alias_fx, h1]

/-- C1 witness: the amended theorem applied to a concrete
non-admitted event (a plain chat message from another user). -/
theorem on_message_nonadmitted_no_outbound_witness :
    (∀ s, Effect.reply s ∉ on_message cfgEx worldOk
      { room_id := "!room:fedora.im", sender := "@alice:fedora.im",
        msgtype := "m.text", body := "hi" }) ∧
    (∀ u, Effect.httpGet u ∉ on_message cfgEx worldOk
      { room_id := "!room:fedora.im", sender := "@alice:fedora.im",
        msgtype := "m.text", body := "hi" }) := by
  have h := on_message_nonadmitted_no_outbound cfgEx worldOk
    { room_id := "!room:fedora.im", sender := "@alice:fedora.im",
      msgtype := "m.text", body := "hi" }
    (by decide)
  exact ⟨h.1, h.2.2.1⟩

/-- C6: an inbound event is admitted for processing (the processing
pipeline starts, signalled by the 30-second typing indicator) iff its
type is notice, its sender is exactly the configured announcing bot,
and its body starts with the marker; and the URL handed to the fetcher
is exactly the body with the marker removed. -/
theorem admission_filter_iff (cfg : Config) (w : World) (evt : Evt) :
    (Effect.setTyping evt.room_id 30000 ∈ on_message cfg w evt ↔ admits cfg evt) ∧
    (∀ u, Effect.httpGet u ∈ on_message cfg w evt ↔
      (admits cfg evt ∧ u = pyDrop evt.body MEETBOT_PREFIX_STR.length)) := by
  obtain ⟨ra, f, ai⟩ := w
  by_cases h1 : evt.msgtype = MESSAGE_TYPE_NOTICE
  · by_cases h2 : evt.sender = cfg.meetbot_id
    · by_cases h3 : pyStartsWith evt.body MEETBOT_PREFIX_STR = true
      · by_cases hdir : cfg.meetings_directory = ""
        · cases ra <;> cases f <;> cases ai <;>
            simp [on_message, handle_meeting_log, get_meeting_log_fx, post_summary,
              save_fx, save_summary_to_file, get_room_alias_fx, h1, h2, h3, hdir, admits]
        · cases ra <;> cases f <;> cases ai <;>
            simp [on_message, handle_meeting_log, get_meeting_log_fx, post_summary,
              save_fx, save_summary_to_file, get_room_alias_fx, h1, h2, h3, hdir, admits]
      · cases ra <;>
          simp [on_message, get_room_alias_fx, h1, h2, h3, admits]
    · cases ra <;> simp [on_message, get_room_alias_fx, h1, h2, admits]
  · cases ra <;> simp [on_message, get_room_alias_fx, h1, admits]

/-- C6 witness: the iff applied to a concrete admitted event, whose
fetch URL is the body with the marker cut off. -/
theorem admission_filter_iff_witness :
    Effect.httpGet "https://example.org/meetings/2025-09-25.log.txt" ∈
      on_message cfgEx worldOk evtAdmitted := by
  exact ((admission_filter_iff cfgEx worldOk evtAdmitted).2 _).2
    ⟨by decide, by decide⟩

/-! ### Claims about the fetch-failure and absent-summary paths -/

/-- C4: for every admitted event whose transcript fetch fails (HTTP
status error or any other exception), the handler sends exactly one
reply, whose text is the typed error message (failure indicator plus
error text), and performs no archive write, no directory creation, no
summary request, and no summary reply. -/
theorem fetch_failure_single_reply (cfg : Config) (w : World) (evt : Evt)
    (hadm : admits cfg evt) (e : String) (he : fetchErrMsg w.fetch = some e) :
    (on_message cfg w evt).filter isReplyE = [Effect.reply e] ∧
    (∀ m, w.fetch = FetchOutcome.httpError m → e = FETCH_FAIL_MSG m) ∧
    (∀ m, w.fetch = FetchOutcome.otherError m → e = FETCH_ERROR_MSG m) ∧
    (∀ p c, Effect.writeText p c ∉ on_message cfg w evt) ∧
    (∀ p, Effect.mkdirParents p ∉ on_message cfg w evt) ∧
    (∀ d, Effect.generateContent d ∉ on_message cfg w evt) ∧
    (∀ s, Effect.respond s ∉ on_message cfg w evt) := by
  obtain ⟨h1, h2, h3⟩ := hadm
  obtain ⟨ra, f, ai⟩ := w
  cases f with
  | ok t => simp [fetchErrMsg] at he
  | httpError m =>
      simp only [fetchErrMsg, Option.some.injEq] at he
      subst he
      cases ra <;>
        simp [on_message, handle_meeting_log, get_meeting_log_fx, get_room_alias_fx,
          isReplyE, h1, h2, h3, List.filter_append, List.filter]
  | otherError m =>
      simp only [fetchErrMsg, Option.some.injEq] at he
      subst he
      cases ra <;>
        simp [on_message, handle_meeting_log, get_meeting_log_fx, get_room_alias_fx,
          isReplyE, h1, h2, h3, List.filter_append, List.filter]

/-- C4 witness: the theorem applied to a concrete admitted event whose
fetch fails with an HTTP 404 status error. -/
theorem fetch_failure_single_reply_witness :
    (on_message cfgEx worldFetchFail evtAdmitted).filter isReplyE =
      [Effect.reply (FETCH_FAIL_MSG ("404, message=\x27Not Found\x27"))] := by
  exact (fetch_failure_single_reply cfgEx worldFetchFail evtAdmitted (by decide)
    (FETCH_FAIL_MSG ("404, message=\x27Not Found\x27")) (by decide)).1

/-- A world where the fetch succeeds with a minimal transcript and the
AI backend returns an empty (but present) summary string. -/
def worldEmptySummary : World :=
  { roomAlias := some "#mtg:fedora.im"
    fetch := FetchOutcome.ok "t"
    aiResult := some "" }

/-- A world where the fetch succeeds with a minimal transcript and the
AI backend returns no summary. -/
def worldNoSummary : World :=
  { roomAlias := some "#mtg:fedora.im"
    fetch := FetchOutcome.ok "t"
    aiResult := none }

set_option maxRecDepth 100000 in
/-- C5 counterexample: the source only checks the summary for absence
(`if summary is None`), so an empty-string summary result is posted to
the room like any other summary — contradicting the claim that an
absent or empty result produces no reply. -/
theorem empty_summary_still_posts :
    World.aiResult worldEmptySummary = some ("") ∧
    Effect.respond (response_template ("") ("")) ∈
      on_message cfgEx worldEmptySummary evtAdmitted := by
  refine ⟨rfl, ?_⟩
  decide

/-- C5 (amended): for every admitted event for which the AI backend
returns an absent (None) summary result, no reply of either kind is
posted, no archive entry is written and no directory is created; a
warning is logged and the pipeline stops, while participant extraction
has still run and been logged (and the summary request itself was
made).  An empty-string result, by contrast, is posted normally. -/
theorem absent_summary_no_post (cfg : Config) (w : World) (evt : Evt)
    (hadm : admits cfg evt) (t : String)
    (hf : w.fetch = FetchOutcome.ok t) (hai : w.aiResult = none) :
    (∀ s, Effect.respond s ∉ on_message cfg w evt) ∧
    (∀ s, Effect.reply s ∉ on_message cfg w evt) ∧
    (∀ p c, Effect.writeText p c ∉ on_message cfg w evt) ∧
    (∀ p, Effect.mkdirParents p ∉ on_message cfg w evt) ∧
    Effect.logWarning ("Could not generate summary for meeting in room " ++ evt.room_id) ∈
      on_message cfg w evt ∧
    Effect.logInfo ("Found " ++ toString (extract_usernames cfg t).length
        ++ " unique participants: " ++ pyReprList (extract_usernames cfg t)) ∈
      on_message cfg w evt ∧
    Effect.generateContent t ∈ on_message cfg w evt := by
  obtain ⟨h1, h2, h3⟩ := hadm
  obtain ⟨ra, f, ai⟩ := w
  simp only at hf hai
  subst hf
  subst hai
  cases ra <;>
    simp [on_message, handle_meeting_log, get_meeting_log_fx, get_room_alias_fx,
      post_summary, h1, h2, h3]

/-- C5 witness: the amended theorem applied to a concrete admitted
event with an absent summary result. -/
theorem absent_summary_no_post_witness :
    (∀ s, Effect.respond s ∉ on_message cfgEx worldNoSummary evtAdmitted) ∧
    Effect.logWarning ("Could not generate summary for meeting in room !room:fedora.im") ∈
      on_message cfgEx worldNoSummary evtAdmitted := by
  have h := absent_summary_no_post cfgEx worldNoSummary evtAdmitted (by decide)
    ("t") rfl rfl
  exact ⟨h.1, h.2.2.2.2.1⟩

/-! ### Claims about the typing indicator -/

/-- C7 counterexample: on the fetch-error early exit the handler
replies and returns without clearing the typing indicator, so the
claim that the indicator is cleared on every early-exit path fails. -/
theorem typing_not_cleared_on_fetch_error :
    Effect.setTyping (Evt.room_id evtAdmitted) 30000 ∈
      on_message cfgEx worldFetchFail evtAdmitted ∧
    Effect.setTyping (Evt.room_id evtAdmitted) 0 ∉
      on_message cfgEx worldFetchFail evtAdmitted := by
  decide

/-- C7 (amended): for every admitted event the handler sets the typing
indicator with a 30000 ms timeout at the start of processing; it
clears it (timeout 0) by the end of processing whenever the fetch
succeeds — including when the summary is absent — but on the
fetch-failure early exit the indicator is left set. -/
theorem typing_indicator_set_and_cleared (cfg : Config) (w : World) (evt : Evt)
    (hadm : admits cfg evt) :
    Effect.setTyping evt.room_id 30000 ∈ on_message cfg w evt ∧
    (∀ t, w.fetch = FetchOutcome.ok t →
      Effect.setTyping evt.room_id 0 ∈ on_message cfg w evt) ∧
    (∀ e, fetchErrMsg w.fetch = some e →
      Effect.setTyping evt.room_id 0 ∉ on_message cfg w evt) := by
  obtain ⟨h1, h2, h3⟩ := hadm
  obtain ⟨ra, f, ai⟩ := w
  by_cases hdir : cfg.meetings_directory = "" <;>
    cases ra <;> cases f <;> cases ai <;>
      simp [on_message, handle_meeting_log, get_meeting_log_fx, get_room_alias_fx,
        post_summary, save_fx, save_summary_to_file, fetchErrMsg, h1, h2, h3, hdir]

/-- C7 witness: the amended theorem applied to a concrete admitted
event whose fetch succeeds. -/
theorem typing_indicator_set_and_cleared_witness :
    Effect.setTyping (Evt.room_id evtAdmitted) 30000 ∈
      on_message cfgEx worldOk evtAdmitted ∧
    Effect.setTyping (Evt.room_id evtAdmitted) 0 ∈
      on_message cfgEx worldOk evtAdmitted := by
  have h := typing_indicator_set_and_cleared cfgEx worldOk evtAdmitted (by decide)
  exact ⟨h.1, h.2.1 ("2025-09-25 08:26:00 <@alice:server.tld> hi") rfl⟩

/-! ### Claims about participant extraction -/

/-- Two strings with the same characters are equal. -/
theorem strExt (s t : String) (h : s.data = t.data) : s = t := by
  cases s
  cases t
  exact congrArg String.mk h

/-- C2: extraction returns exactly the identities matched by the
speaker-line pattern — deduplicated (duplicate speaker lines for one
identity yield exactly one occurrence), lexicographically sorted, with
the ignored identities (the bot itself, the announcing bot, the
configured exclusions) removed; removal is pure membership filtering,
so removing an identity that never spoke is a no-op. -/
theorem extract_usernames_correct (cfg : Config) (meeting_log : String) :
    (∀ u, u ∈ extract_usernames cfg meeting_log ↔
      (u ∈ regexMatches meeting_log ∧ u ∉ ignoredIds cfg)) ∧
    (extract_usernames cfg meeting_log).Sorted (· ≤ ·) ∧
    (extract_usernames cfg meeting_log).Nodup ∧
    (∀ u ∈ extract_usernames cfg meeting_log,
      (extract_usernames cfg meeting_log).count u = 1) := by
  have hdn : ((regexMatches meeting_log).dedup).Nodup :=
    (regexMatches meeting_log).nodup_dedup
  have hfold : ((ignoredIds cfg).foldl (fun s i => s.erase i)
      (regexMatches meeting_log).dedup).Nodup :=
    foldl_erase_nodup _ _ hdn
  have hperm : List.Perm (extract_usernames cfg meeting_log)
      ((ignoredIds cfg).foldl (fun s i => s.erase i) (regexMatches meeting_log).dedup) :=
    List.perm_insertionSort (· ≤ ·) _
  have hN : (extract_usernames cfg meeting_log).Nodup := hperm.nodup_iff.mpr hfold
  refine ⟨fun u => ?_, List.sorted_insertionSort _ _, hN,
    fun u hu => List.count_eq_one_of_mem hN hu⟩
  rw [hperm.mem_iff, mem_foldl_erase _ _ hdn, List.mem_dedup]

/-- The spec example transcript: two distinct speakers, a duplicate
line from the first, and lines from the two excluded bots. -/
def logEx : String :=
  "2025-09-25 08:26:00 <@alice:server.tld> hi\n2025-09-25 08:27:00 <@bob:server.tld> hello\n2025-09-25 08:28:00 <@alice:server.tld> again\n2025-09-25 08:29:00 <@zodbot:fedora.im> meeting\n2025-09-25 08:30:00 <@meetbot:fedora.im> ok"

set_option maxRecDepth 1000000 in
/-- C2 witness: the theorem applied to the spec example transcript —
the duplicated speaker appears exactly once, the excluded identity is
absent, and the result is sorted. -/
theorem extract_usernames_correct_witness :
    "@alice:server.tld" ∈ extract_usernames cfgEx logEx ∧
    (extract_usernames cfgEx logEx).count ("@alice:server.tld") = 1 ∧
    "@zodbot:fedora.im" ∉ extract_usernames cfgEx logEx ∧
    (extract_usernames cfgEx logEx).Sorted (· ≤ ·) := by
  have h := extract_usernames_correct cfgEx logEx
  have ha : "@alice:server.tld" ∈ extract_usernames cfgEx logEx :=
    (h.1 _).2 ⟨by decide, by decide⟩
  exact ⟨ha, h.2.2.2 _ ha, fun hc => ((h.1 _).1 hc).2 (by decide), h.2.1⟩

/-! ### Claims about archiving -/

/-- Derivation lemma: when the URL path ends in the transcript suffix,
truncating the last eight characters and appending the summary suffix
is exactly suffix replacement. -/
theorem derive_summary_path_of_suffix (url q : String)
    (hpath : urlparse_path url = q ++ LOG_SUFFIX) :
    derive_summary_path url = pyLstripSlash (q ++ SUMMARY_SUFFIX) := by
  simp only [derive_summary_path]
  rw [hpath]
  congr 1
  apply strExt
  show (q.data ++ LOG_SUFFIX.data).take
      ((q.data ++ LOG_SUFFIX.data).length - LOG_SUFFIX.data.length)
      ++ SUMMARY_SUFFIX.data = q.data ++ SUMMARY_SUFFIX.data
  rw [List.length_append, Nat.add_sub_cancel, List.take_left]

/-- C3: with a configured archive root, the archived file path is the
root joined with the URL path component, leading slashes stripped and
the transcript suffix replaced by the summary suffix, and the written
content is the fixed unvalidated-notice line followed by the summary;
accordingly the publisher emits exactly that file write. -/
theorem archive_path_and_content (cfg : Config) (summary url q : String)
    (hdir : cfg.meetings_directory ≠ "")
    (hpath : urlparse_path url = q ++ LOG_SUFFIX) :
    save_summary_to_file cfg summary (derive_summary_path url) false =
      some (pathJoin cfg.meetings_directory (pyLstripSlash (q ++ SUMMARY_SUFFIX)),
        UNVALIDATED_NOTICE ++ summary) ∧
    (∀ (evt : Evt) (usernames : List String),
      Effect.writeText
          (pathJoin cfg.meetings_directory (pyLstripSlash (q ++ SUMMARY_SUFFIX)))
          (UNVALIDATED_NOTICE ++ summary) ∈
        post_summary cfg evt (some summary) usernames url) := by
  have hd := derive_summary_path_of_suffix url q hpath
  constructor
  · rw [hd]
    simp [save_summary_to_file, hdir]
  · intro evt usernames
    simp [post_summary, save_fx, save_summary_to_file, hdir, hd]

set_option maxRecDepth 1000000 in
/-- C3 witness: the theorem applied to the spec example URL and
archive root. -/
theorem archive_path_and_content_witness :
    save_summary_to_file cfgEx ("SUM")
        (derive_summary_path ("https://example.org/meetings/2025-09-25.log.txt")) false =
      some (("/data/minutes/meetings/2025-09-25.summary.md"),
        UNVALIDATED_NOTICE ++ "SUM") := by
  have h := (archive_path_and_content cfgEx ("SUM")
    ("https://example.org/meetings/2025-09-25.log.txt") ("/meetings/2025-09-25")
    (by decide) (by decide)).1
  rw [h]
  decide

/-- C8: when the archive root is unset (empty), archiving performs no
filesystem effect at all — `_save_summary_to_file` returns before any
directory creation or file write, on every event — and the pipeline
otherwise completes normally (an admitted event with a successful
fetch and a present summary still gets its reply). -/
theorem empty_archive_root_no_write (cfg : Config) (w : World) (evt : Evt)
    (hdir : cfg.meetings_directory = "") :
    (∀ s p v, save_summary_to_file cfg s p v = none) ∧
    ((∀ p c, Effect.writeText p c ∉ on_message cfg w evt) ∧
      (∀ p, Effect.mkdirParents p ∉ on_message cfg w evt)) ∧
    (∀ s t, admits cfg evt → w.fetch = FetchOutcome.ok t → w.aiResult = some s →
      Effect.respond
          (response_template (String.intercalate (", ") (extract_usernames cfg t)) s) ∈
        on_message cfg w evt) := by
  obtain ⟨ra, f, ai⟩ := w
  refine ⟨fun s p v => by simp [save_summary_to_file, hdir], ?_, ?_⟩
  · by_cases h1 : evt.msgtype = MESSAGE_TYPE_NOTICE
    · by_cases h2 : evt.sender = cfg.meetbot_id
      · by_cases h3 : pyStartsWith evt.body MEETBOT_PREFIX_STR = true
        · cases ra <;> cases f <;> cases ai <;>
            simp [on_message, handle_meeting_log, get_meeting_log_fx, get_room_alias_fx,
              post_summary, save_fx, save_summary_to_file, h1, h2, h3, hdir]
        · cases ra <;> simp [on_message, get_room_alias_fx, h1, h2, h3]
      · cases ra <;> simp [on_message, get_room_alias_fx, h1, h2]
    · cases ra <;> simp [on_message, get_room_alias_fx, h1]
  · intro s t hadm hf hai
    obtain ⟨h1, h2, h3⟩ := hadm
    simp only at hf hai
    subst hf
    subst hai
    cases ra <;>
      simp [on_message, handle_meeting_log, get_meeting_log_fx, get_room_alias_fx,
        post_summary, save_fx, save_summary_to_file, h1, h2, h3, hdir]

/-- C8 witness: the theorem applied to a configuration with the
archive root unset, on a concrete admitted event with a summary. -/
theorem empty_archive_root_no_write_witness :
    (∀ p c, Effect.writeText p c ∉
      on_message { cfgEx with meetings_directory := "" } worldOk evtAdmitted) ∧
    Effect.respond
        (response_template
          (String.intercalate (", ")
            (extract_usernames { cfgEx with meetings_directory := "" }
              ("2025-09-25 08:26:00 <@alice:server.tld> hi"))) ("SUM")) ∈
      on_message { cfgEx with meetings_directory := "" } worldOk evtAdmitted := by
  have h := empty_archive_root_no_write { cfgEx with meetings_directory := "" }
    worldOk evtAdmitted rfl
  exact ⟨h.2.1.1,
    h.2.2 ("SUM") ("2025-09-25 08:26:00 <@alice:server.tld> hi") (by decide) rfl rfl⟩

/-- Python `s.endswith(t)`, via the reversed character lists. -/
def pyEndsWith (s t : String) : Bool :=
  markerAtHead t.data.reverse s.data.reverse

/-- C9: the archive path derivation removes the final eight characters
of the URL path component unconditionally — also when the path does
not end in the transcript suffix — before appending the summary
suffix; a path of at most eight characters truncates to the empty
string, leaving just the bare summary suffix. -/
theorem unconditional_suffix_truncation (url : String)
    (_h : pyEndsWith (urlparse_path url) LOG_SUFFIX = false) :
    derive_summary_path url =
      pyLstripSlash
        ⟨(urlparse_path url).data.take ((urlparse_path url).data.length - 8)
          ++ SUMMARY_SUFFIX.data⟩ ∧
    ((urlparse_path url).data.length ≤ 8 → derive_summary_path url = SUMMARY_SUFFIX) := by
  constructor
  · rfl
  · intro hle
    have h0 : (urlparse_path url).data.length - LOG_SUFFIX.length = 0 :=
      Nat.sub_eq_zero_of_le hle
    show pyLstripSlash
        ⟨(urlparse_path url).data.take ((urlparse_path url).data.length - LOG_SUFFIX.length)
          ++ SUMMARY_SUFFIX.data⟩ = SUMMARY_SUFFIX
    rw [h0, List.take_zero, List.nil_append]
    decide

set_option maxRecDepth 1000000 in
/-- C9 witness: a URL whose two-character path lacks the transcript
suffix still gets truncated — to the empty string — so the derived
path is the bare summary suffix. -/
theorem unconditional_suffix_truncation_witness :
    pyEndsWith (urlparse_path ("https://example.org/ab")) LOG_SUFFIX = false ∧
    derive_summary_path ("https://example.org/ab") = SUMMARY_SUFFIX := by
  refine ⟨by decide, ?_⟩
  exact (unconditional_suffix_truncation ("https://example.org/ab") (by decide)).2
    (by decide)

/-! ### Claim about the configuration update -/

/-- Assigning a key makes it present with the assigned value. -/
theorem sectionGet_sectionSet_self (s : ConfigSection) (key val : String) :
    sectionGet (sectionSet s key val) key = some val := by
  induction s with
  | nil => simp [sectionSet, sectionGet]
  | cons kv t ih =>
      obtain ⟨k, v⟩ := kv
      by_cases hk : k = key
      · simp [sectionSet, sectionGet, hk]
      · simp [sectionSet, sectionGet, hk, ih]

/-- C10: when the base configuration has a gemini section carrying a
model, the update never fails, the updated configuration always has a
gemini section carrying a model, and in particular a stored gemini
section lacking a model is filled in with the base model before being
copied. -/
theorem do_update_gemini_model (source base : StoredConfig) (bg : ConfigSection)
    (m : String) (hb : base.gemini = some bg) (hm : sectionGet bg MODEL_KEY = some m) :
    ∃ r, do_update source base = some r ∧
      ∃ rg, r.gemini = some rg ∧ (sectionGet rg MODEL_KEY).isSome = true ∧
        (∀ g, source.gemini = some g → sectionGet g MODEL_KEY = none →
          sectionGet rg MODEL_KEY = some m) := by
  cases hsg : source.gemini with
  | none =>
      refine ⟨⟨base.gemini, copyOpt source.meetbot_id base.meetbot_id,
          copyOpt source.ignored_participants base.ignored_participants,
          copyOpt source.meetings_directory base.meetings_directory⟩,
        by simp [do_update, hsg, copyOpt], bg, hb, by simp [hm], ?_⟩
      intro g hg _
      simp at hg
  | some g =>
      cases hgm : sectionGet g MODEL_KEY with
      | none =>
          refine ⟨⟨some (sectionSet g MODEL_KEY m),
              copyOpt source.meetbot_id base.meetbot_id,
              copyOpt source.ignored_participants base.ignored_participants,
              copyOpt source.meetings_directory base.meetings_directory⟩,
            by simp [do_update, hsg, hgm, hb, hm, copyOpt], sectionSet g MODEL_KEY m, rfl,
            by simp [sectionGet_sectionSet_self], ?_⟩
          intro g' hg' _
          exact sectionGet_sectionSet_self g MODEL_KEY m
      | some v =>
          refine ⟨⟨some g, copyOpt source.meetbot_id base.meetbot_id,
              copyOpt source.ignored_participants base.ignored_participants,
              copyOpt source.meetings_directory base.meetings_directory⟩,
            by simp [do_update, hsg, hgm, copyOpt], g, rfl, by simp [hgm], ?_⟩
          intro g' hg' hnone
          cases hg'
          rw [hgm] at hnone
          simp at hnone

/-- C10 witness: the theorem applied to a stored config whose gemini
section lacks a model and a base config carrying one. -/
theorem do_update_gemini_model_witness :
    ∃ r, do_update
        { gemini := some [("api_key", "K")], meetbot_id := none,
          ignored_participants := none, meetings_directory := none }
        { gemini := some [("api_key", ""), ("model", "gemini-2.0-flash")],
          meetbot_id := some "@meetbot:fedora.im", ignored_participants := some [],
          meetings_directory := some "" } = some r ∧
      ∃ rg, r.gemini = some rg ∧ (sectionGet rg MODEL_KEY).isSome = true := by
  obtain ⟨r, hr, rg, hrg, hsome, _⟩ := do_update_gemini_model
    { gemini := some [("api_key", "K")], meetbot_id := none,
      ignored_participants := none, meetings_directory := none }
    { gemini := some [("api_key", ""), ("model", "gemini-2.0-flash")],
      meetbot_id := some "@meetbot:fedora.im", ignored_participants := some [],
      meetings_directory := some "" }
    ([("api_key", ""), ("model", "gemini-2.0-flash")]) ("gemini-2.0-flash") rfl
    (by decide)
  exact ⟨r, hr, rg, hrg, hsome⟩
